import Mathlib

/-!
Verification of the Chess-CV geometric-calibration and square-classification
pipeline (src/src/processingOps.cpp, src/src/pieceDetectionOps.cpp,
src/src/chessAnalysis.cpp) against its natural-language specification.

The C++ code is shallowly embedded: `cv::Point2f` becomes a pair of exact
rationals, `cv::Vec4i` a quadruple of integers, `cv::Size` a pair of
integers, and `cv::Rect` a rational-coordinate rectangle (the int
quantisation cv::Rect performs on float corners is a representation detail
of image rendering and is not modelled).  Floating-point arithmetic is
modelled by exact rational arithmetic.  Fallible operations (out-of-range
vector or array reads, map lookups that can throw) return `Option`, with
`none` marking the access that C++ leaves undefined.  OpenCV library calls
(cvtColor, Canny, the DNN forward pass) are external collaborators of the
repository and are taken as opaque function parameters.
-/

namespace ChessCV

/-- Model of `cv::Point2f`: two floating-point coordinates, modelled exactly as rationals. -/
structure Point where
  x : ℚ
  y : ℚ
deriving DecidableEq

instance : Inhabited Point := ⟨⟨0, 0⟩⟩

/-- Model of `cv::Vec4i`: a line segment given by two integer endpoints (x1,y1)-(x2,y2). -/
structure Line4 where
  x1 : ℤ
  y1 : ℤ
  x2 : ℤ
  y2 : ℤ
deriving DecidableEq

/-- Model of `cv::Size`: integer width and height of an image. -/
structure ImgSize where
  width : ℤ
  height : ℤ
deriving DecidableEq

/-- Model of `cv::Rect`: axis-aligned rectangle, origin plus width/height.  Coordinates
are kept as exact rationals (see module comment). -/
structure Rect where
  x : ℚ
  y : ℚ
  width : ℚ
  height : ℚ
deriving DecidableEq

instance : Inhabited Rect := ⟨⟨0, 0, 0, 0⟩⟩

/-- The two-point `cv::Rect` constructor used by `setRectangles` and
`isEmptySpace`: origin is the componentwise minimum of the two corners,
extent the componentwise difference of maximum and minimum. -/
def mkRect (topLeft bottomRight : Point) : Rect :=
  { x := min topLeft.x bottomRight.x
    y := min topLeft.y bottomRight.y
    width := max topLeft.x bottomRight.x - min topLeft.x bottomRight.x
    height := max topLeft.y bottomRight.y - min topLeft.y bottomRight.y }

/-- Embedding of `comparePoints` (processingOps.cpp lines 26-36): sorts first by y value
with a vertical slack of 8, then by x value. -/
def comparePoints (p1 p2 : Point) : Bool :=
  if p1.y + 8 < p2.y then
    true
  else
    decide (p1.y + 8 > p2.y ∧ p1.y < p2.y + 8 ∧ p1.x < p2.x)

/-- Embedding of `checkIntersection` (processingOps.cpp lines 48-70): solves the 2D
line-intersection of two segments by direction vectors.  The C++ returns a
bool plus an out-parameter; here `some r` is "true with result r" and `none`
is "false".  The diagnostic printf on negative endpoints has no effect on
the result and is omitted.  (Marked irreducible so that symbolic goals never
unfold the numerical body; concrete evaluations go through the kernel, which
ignores the attribute.) -/
@[irreducible] def checkIntersection (line1 line2 : Line4) (imageSize : ImgSize) : Option Point :=
  let o1 : Point := ⟨line1.x1, line1.y1⟩
  let p1 : Point := ⟨line1.x2, line1.y2⟩
  let o2 : Point := ⟨line2.x1, line2.y1⟩
  let p2 : Point := ⟨line2.x2, line2.y2⟩
  let xv : Point := ⟨o2.x - o1.x, o2.y - o1.y⟩
  let d1 : Point := ⟨p1.x - o1.x, p1.y - o1.y⟩
  let d2 : Point := ⟨p2.x - o2.x, p2.y - o2.y⟩
  let cross : ℚ := d1.x * d2.y - d1.y * d2.x
  if |cross| < 1 / 100000000 then
    none
  else
    let t1 : ℚ := (xv.x * d2.y - xv.y * d2.x) / cross
    let r : Point := ⟨o1.x + d1.x * t1, o1.y + d1.y * t1⟩
    if r.x ≥ 0 ∧ r.y ≥ 0 ∧ r.x < (imageSize.width : ℚ) ∧ r.y < (imageSize.height : ℚ) then
      some r
    else
      none

/-- Squared Euclidean distance, the radicand of `distMacro`
(processingOps.hpp line 19). -/
def sqDist (a b : Point) : ℚ :=
  (a.x - b.x) * (a.x - b.x) + (a.y - b.y) * (a.y - b.y)

/-- Embedding of `arePointsNearby` (processingOps.cpp lines 80-91): true when some point
of the list is within `distance` of `point`.  The C++ compares
`sqrtf(sqDist) <= distance`; since the only call site passes the
nonnegative threshold 30, this is modelled exactly and sqrt-free as
`sqDist <= distance * distance`. -/
def arePointsNearby (point : Point) (points : List Point) (distance : ℚ) : Bool :=
  points.any (fun p => decide (sqDist point p ≤ distance * distance))

/-- The body of the double loop of `getIntersections` (processingOps.cpp
lines 185-205) for one pair of lines: compute the candidate intersection,
keep it only if it clears the 25-pixel border margin of the destination
image and is not within 30 of an already-accepted point. -/
def considerCandidate (imageSize dstSize : ImgSize) (acc : List Point)
    (line1 line2 : Line4) : List Point :=
  match checkIntersection line1 line2 imageSize with
  | none => acc
  | some intersection =>
    if intersection.x > 25 ∧ intersection.x < (dstSize.width : ℚ) - 25 ∧
        intersection.y > 25 ∧ intersection.y < (dstSize.height : ℚ) - 25 then
      if arePointsNearby intersection acc 30 then acc else acc ++ [intersection]
    else acc

/-- The unordered pairs `(lines[i], lines[j])` with `i < j`, in the order the
nested loops of `getIntersections` visit them. -/
def pairsInOrder : List Line4 → List (Line4 × Line4)
  | [] => []
  | l :: ls => ls.map (fun m => (l, m)) ++ pairsInOrder ls

/-- Embedding of `getIntersections` (processingOps.cpp lines 182-228): accumulate
deduplicated pairwise intersections starting from the caller's accumulator
(empty at every call site, and in the claims), then sort with
`comparePoints`.  `std::sort` is modelled by insertion sort, a comparison
sort producing a permutation of its input; the drawing of debug circles and
the printf are omitted. -/
def getIntersections (lines : List Line4) (imageSize dstSize : ImgSize) : List Point :=
  List.insertionSort (fun p q => comparePoints p q = true)
    ((pairsInOrder lines).foldl
      (fun acc pr => considerCandidate imageSize dstSize acc pr.1 pr.2) [])

/-- The body of `setRectangles` (processingOps.cpp lines 240-270) on the
flat square index list: for index `i` (row = i / 8, col = i % 8, exactly the
order of the nested row/col loops) read the top-left corner at
`row * 9 + col` and the bottom-right corner at `(row+1) * 9 + (col+1)`.
The C++ indexes the vector unchecked; `none` marks the out-of-range read
that is undefined behaviour there. -/
def buildRects (intersections : List Point) : List ℕ → Option (List Rect)
  | [] => some []
  | i :: is =>
    match intersections.get? (i / 8 * 9 + i % 8),
        intersections.get? ((i / 8 + 1) * 9 + (i % 8 + 1)) with
    | some topLeft, some bottomRight =>
      match buildRects intersections is with
      | some rs => some (mkRect topLeft bottomRight :: rs)
      | none => none
    | _, _ => none

/-- Embedding of `setRectangles` (processingOps.cpp lines 240-270): build the 64 square
rectangles from the sorted intersection list.  Drawing and printf omitted. -/
def setRectangles (intersections : List Point) : Option (List Rect) :=
  buildRects intersections (List.range 64)

/-- The `pieceToFen` map (chessAnalysis.cpp lines 11-24).  The C++ accesses
it with `.at`, which throws for a key outside the map; `none` models that. -/
def pieceToFen : String → Option String
  | "wp" => some "P"
  | "wn" => some "N"
  | "wb" => some "B"
  | "wr" => some "R"
  | "wq" => some "Q"
  | "wk" => some "K"
  | "bp" => some "p"
  | "bn" => some "n"
  | "bb" => some "b"
  | "br" => some "r"
  | "bq" => some "q"
  | "bk" => some "k"
  | _ => none

/-- The encoding loop of `getFenFromLabels` (chessAnalysis.cpp lines
140-166), walking the labels with index `i` and run-length counter
`currentEmpty`: at every index that starts a new row the pending empty run
is flushed and a row separator appended; an "ee" label extends the run; any
other label flushes the run and appends its map character.  Note that after
the final label the loop simply ends: a pending empty run is NOT flushed. -/
def fenFold : List String → ℕ → ℕ → String → Option String
  | [], _, _, fen => some fen
  | l :: rest, i, currentEmpty, fen =>
    let fen1 := if i % 8 == 0 && i != 0 then
        (if currentEmpty > 0 then fen ++ toString currentEmpty else fen) ++ "/"
      else fen
    let ce1 := if i % 8 == 0 && i != 0 then 0 else currentEmpty
    if l == "ee" then
      fenFold rest (i + 1) (ce1 + 1) fen1
    else
      match pieceToFen l with
      | some c => fenFold rest (i + 1) 0 ((if ce1 > 0 then fen1 ++ toString ce1 else fen1) ++ c)
      | none => none

/-- Embedding of `getFenFromLabels` (chessAnalysis.cpp lines 132-181).  A label vector
whose size is not 64 is rejected up front with the empty string.  The C++
then solicits the side to move interactively, looping until "w" or "b" is
entered; that accepted side is the `turn` parameter here, appended after the
board field together with the fixed castling/clock tail. -/
def getFenFromLabels (squareLabels : List String) (turn : String) : Option String :=
  if squareLabels.length != 64 then
    some ""
  else
    match fenFold squareLabels 0 0 "" with
    | some fen => some (fen ++ " " ++ turn ++ " - - 0 0")
    | none => none

/-- Embedding of `PIECE_VALUES` (pieceDetectionOps.hpp line 24): the fixed ordered label
table of the learned classifier. -/
def PIECE_VALUES : List String :=
  ["bb", "bk", "bn", "bp", "bq", "br", "wb", "wk", "wn", "wp", "wq", "wr"]

/-- A decoded image: `cv::Mat` with its pixel grid abstracted as a total
function (indices outside rows x cols are never produced by the embedded
code paths under their in-bounds preconditions). -/
structure Mat where
  rows : ℕ
  cols : ℕ
  pix : ℤ → ℤ → ℚ

/-- Model of `image(rect)`: the OpenCV region-of-interest crop, a view of size
height x width whose (i, j) pixel is the parent's (rect.y + i, rect.x + j)
pixel.  Rational corner coordinates are truncated to integers by floor
(the claims under verification never depend on the rounding mode). -/
def cropRect (m : Mat) (r : Rect) : Mat :=
  { rows := r.height.floor.toNat
    cols := r.width.floor.toNat
    pix := fun i j => m.pix (r.y.floor + i) (r.x.floor + j) }

/-- Model of `cv::sum(m)[0]`: the sum of all pixels of a single-channel Mat. -/
def matSum (m : Mat) : ℚ :=
  ((List.range m.rows).map
    (fun i => ((List.range m.cols).map (fun j => m.pix i j)).sum)).sum

/-- The rectangle is contained in the image's pixel grid. -/
def rectInBounds (image : Mat) (r : Rect) : Prop :=
  0 ≤ r.x ∧ 0 ≤ r.y ∧ r.x + r.width ≤ (image.cols : ℚ) ∧ r.y + r.height ≤ (image.rows : ℚ)

instance (image : Mat) (r : Rect) : Decidable (rectInBounds image r) := by
  unfold rectInBounds
  infer_instance

/-- Embedding of `isEmptySpace` (pieceDetectionOps.cpp lines 29-52): crop the square,
convert to grayscale, run Canny, and sum the edge response over the central
60% x 60% sub-window; the square is empty when that sum is below 7000.
`cvtColor` and `canny` are OpenCV collaborators passed as opaque functions.
The `isDarkSquare` parameter is accepted exactly as in the source. -/
def isEmptySpace (cvtColor canny : Mat → Mat) (image : Mat) (currentRect : Rect)
    (isDarkSquare : Bool) : Bool :=
  let startX : ℚ := currentRect.width * (2 / 10)
  let endX : ℚ := currentRect.width * (8 / 10)
  let startY : ℚ := currentRect.height * (2 / 10)
  let endY : ℚ := currentRect.height * (8 / 10)
  let square := cropRect image currentRect
  let temp := canny (cvtColor square)
  let regionToCheck := cropRect temp (mkRect ⟨startX, startY⟩ ⟨endX, endY⟩)
  decide (matSum regionToCheck < 7000)

/-- Embedding of `getNNPieceLabel` (pieceDetectionOps.cpp lines 108-134): crop the
square, run the external classifier (blobFromImage + readNetFromONNX +
forward + minMaxLoc, all abstracted as `classify`), and map the arg-max
class index through `PIECE_VALUES[classId]`.  That C-array access is
unchecked in the source; the explicit range guard here makes the
out-of-bounds read visible as `none` (no error value exists in the code). -/
def getNNPieceLabel (classify : Mat → ℤ) (image : Mat) (currentRect : Rect) : Option String :=
  let square := cropRect image currentRect
  let classId := classify square
  if 0 ≤ classId ∧ classId < 12 then PIECE_VALUES.get? classId.toNat else none

/-- The loop of `getPieceLabels` (pieceDetectionOps.cpp lines 158-195) with
its two collaborators abstracted: `isEmpty` is `isEmptySpace` applied to the
working copy, and `classify r d` is the branch
`d ? computeHistogramDiffs(dark corpus) : computeHistogramDiffs(light corpus)`.
State: square counter `current` and the `isDarkSquare` flag, which is
toggled after each square except the last of each row of 8
(`if (current % 8 != 7) isDarkSquare = !isDarkSquare`). -/
def getPieceLabelsGo (isEmpty : Rect → Bool → Bool) (classify : Rect → Bool → String) :
    ℕ → Bool → List Rect → List String
  | _, _, [] => []
  | current, isDarkSquare, r :: rest =>
    (if isEmpty r isDarkSquare then "ee" else classify r isDarkSquare) ::
      getPieceLabelsGo isEmpty classify (current + 1)
        (if current % 8 != 7 then !isDarkSquare else isDarkSquare) rest

/-- Embedding of `getPieceLabels` (pieceDetectionOps.cpp lines 147-198): CSV corpus
loading, drawing and the return code are external or effect-only and
omitted; the label list is the function's observable output. -/
def getPieceLabels (isEmpty : Rect → Bool → Bool) (classify : Rect → Bool → String)
    (rectangles : List Rect) : List String :=
  getPieceLabelsGo isEmpty classify 0 false rectangles

/-- The loop of `getPieceLabelsNN` (pieceDetectionOps.cpp lines 216-247):
same shape, but the flag update is `isDarkSquare = !isDarkSquare` on every
iteration, with no reset at the end of a row, and the classifier
(`getNNPieceLabel`) does not receive the flag. -/
def getPieceLabelsNNGo (isEmpty : Rect → Bool → Bool) (classify : Rect → String) :
    Bool → List Rect → List String
  | _, [] => []
  | isDarkSquare, r :: rest =>
    (if isEmpty r isDarkSquare then "ee" else classify r) ::
      getPieceLabelsNNGo isEmpty classify (!isDarkSquare) rest

/-- Embedding of `getPieceLabelsNN` (pieceDetectionOps.cpp lines 210-250). -/
def getPieceLabelsNN (isEmpty : Rect → Bool → Bool) (classify : Rect → String)
    (rectangles : List Rect) : List String :=
  getPieceLabelsNNGo isEmpty classify false rectangles

/-- The loop of `computeHistogramIntersectionDifference` (pieceDetectionOps.cpp
lines 339-343): walk `i` over `h1`, accumulating `min(h1[i], h2[i])`.  The
read `h2[i]` is unchecked in the source; `none` marks the out-of-range read
reached when `h2` is shorter than `h1`.  The empty `if (min != 0.0) {}`
statement and the "Size issues..." printf have no effect and are omitted. -/
def histIntersectionLoop : List ℚ → List ℚ → ℚ → Option ℚ
  | [], _, acc => some acc
  | _ :: _, [], _ => none
  | a :: as, b :: bs, acc => histIntersectionLoop as bs (acc + min a b)

/-- Embedding of `computeHistogramIntersectionDifference` (pieceDetectionOps.cpp lines
332-347): one minus the histogram intersection.  Mismatched sizes only
trigger a printf; the numeric result is computed and returned regardless
(when `h1` is the longer vector the loop reads past the end of `h2`). -/
def computeHistogramIntersectionDifference (h1 h2 : List ℚ) : Option ℚ :=
  match histIntersectionLoop h1 h2 0 with
  | some intersection => some (1 - intersection)
  | none => none

/-- Componentwise order on points. -/
def pointLE (p q : Point) : Prop :=
  p.x ≤ q.x ∧ p.y ≤ q.y

instance (p q : Point) : Decidable (pointLE p q) := by
  unfold pointLE
  infer_instance

/-- The spec's hypothesis "81 points in sorted row-major order (conceptually
a 9x9 lattice flattened row-major)", formalised as componentwise
monotonicity of the lattice along each row and down each column: moving one
step right or one step down never decreases either coordinate. -/
def rowMajorSorted (pts : List Point) : Prop :=
  (∀ (r : Fin 9) (c : Fin 8),
    pointLE (pts.getD (9 * r.val + c.val) ⟨0, 0⟩) (pts.getD (9 * r.val + c.val + 1) ⟨0, 0⟩)) ∧
  (∀ (r : Fin 8) (c : Fin 9),
    pointLE (pts.getD (9 * r.val + c.val) ⟨0, 0⟩) (pts.getD (9 * (r.val + 1) + c.val) ⟨0, 0⟩))

instance (pts : List Point) : Decidable (rowMajorSorted pts) := by
  unfold rowMajorSorted
  infer_instance

/-- Demonstration lattice for the grid-assembly claims: a perfectly regular
9x9 grid with 10-unit spacing, flattened row-major. -/
def demoPts : List Point :=
  (List.range 81).map (fun i => ⟨((i % 9 : ℕ) : ℚ) * 10, ((i / 9 : ℕ) : ℚ) * 10⟩)

/-- Demonstration lines for the intersection claims: one horizontal segment
and two vertical segments. -/
def demoL1 : Line4 := ⟨0, 100, 400, 100⟩

def demoL2 : Line4 := ⟨100, 0, 100, 400⟩

def demoL3 : Line4 := ⟨200, 0, 200, 400⟩

def demoLines : List Line4 := [demoL1, demoL2, demoL3]

/-- The working resolution used by the pipeline (chessCV.cpp / labelImages). -/
def demoSize : ImgSize := ⟨428, 524⟩

/-- Demonstration image and square for the classification claims. -/
def demoMat : Mat := ⟨4, 4, fun _ _ => 0⟩

def demoRect : Rect := ⟨0, 0, 2, 2⟩

/-! Helper lemmas shared by the claim theorems. -/

theorem sqDist_comm (a b : Point) : sqDist a b = sqDist b a := by
  unfold sqDist
  ring

theorem arePointsNearby_eq_false {point : Point} {points : List Point} {distance : ℚ}
    (h : arePointsNearby point points distance = false) :
    ∀ p ∈ points, ¬ sqDist point p ≤ distance * distance := by
  intro p hp
  unfold arePointsNearby at h
  rw [List.any_eq_false] at h
  simpa using h p hp

theorem considerCandidate_pairwise {imageSize dstSize : ImgSize} {acc : List Point}
    {line1 line2 : Line4}
    (h : acc.Pairwise (fun p q => ¬ sqDist p q ≤ 900)) :
    (considerCandidate imageSize dstSize acc line1 line2).Pairwise
      (fun p q => ¬ sqDist p q ≤ 900) := by
  unfold considerCandidate
  cases hc : checkIntersection line1 line2 imageSize with
  | none => exact h
  | some r =>
    dsimp only
    split_ifs with hm hn
    · exact h
    · have hn2 : arePointsNearby r acc 30 = false := by simpa using hn
      rw [List.pairwise_append]
      refine ⟨h, by simp, ?_⟩
      intro p hp q hq
      have hqr : q = r := by simpa using hq
      subst hqr
      have hfar := arePointsNearby_eq_false hn2 p hp
      rw [sqDist_comm] at hfar
      intro hle
      exact hfar (by linarith)
    · exact h

theorem foldl_considerCandidate_pairwise (imageSize dstSize : ImgSize)
    (prs : List (Line4 × Line4)) :
    ∀ acc : List Point, acc.Pairwise (fun p q => ¬ sqDist p q ≤ 900) →
      (prs.foldl (fun acc pr => considerCandidate imageSize dstSize acc pr.1 pr.2)
        acc).Pairwise (fun p q => ¬ sqDist p q ≤ 900) := by
  induction prs with
  | nil => intro acc h; exact h
  | cons pr prs ih =>
    intro acc h
    exact ih _ (considerCandidate_pairwise h)

theorem getIntersections_pairwise (lines : List Line4) (imageSize dstSize : ImgSize) :
    (getIntersections lines imageSize dstSize).Pairwise (fun p q => ¬ sqDist p q ≤ 900) := by
  unfold getIntersections
  have hperm := List.perm_insertionSort (fun p q => comparePoints p q = true)
    ((pairsInOrder lines).foldl
      (fun acc pr => considerCandidate imageSize dstSize acc pr.1 pr.2) [])
  have hsym : ∀ {p q : Point}, ¬ sqDist p q ≤ 900 → ¬ sqDist q p ≤ 900 := by
    intro p q h
    rw [sqDist_comm]
    exact h
  exact (hperm.pairwise_iff hsym).mpr
    (foldl_considerCandidate_pairwise imageSize dstSize (pairsInOrder lines) []
      List.Pairwise.nil)

theorem buildRects_some_reads {pts : List Point} :
    ∀ {is : List ℕ} {rs : List Rect}, buildRects pts is = some rs →
      ∀ i ∈ is, ∃ br, pts.get? ((i / 8 + 1) * 9 + (i % 8 + 1)) = some br := by
  intro is
  induction is with
  | nil => intro rs _ i hi; cases hi
  | cons j js ih =>
    intro rs h i hi
    rw [buildRects] at h
    cases h1 : pts.get? (j / 8 * 9 + j % 8) with
    | none => rw [h1] at h; cases h
    | some tl =>
      cases h2 : pts.get? ((j / 8 + 1) * 9 + (j % 8 + 1)) with
      | none => rw [h1, h2] at h; cases h
      | some br =>
        rw [h1, h2] at h
        cases h3 : buildRects pts js with
        | none => rw [h3] at h; cases h
        | some rs2 =>
          rcases List.mem_cons.mp hi with hij | hijs
          · subst hij
            exact ⟨br, h2⟩
          · exact ih h3 i hijs

theorem buildRects_eq_map (pts : List Point) (g1 g2 : ℕ → Point) :
    ∀ is : List ℕ,
      (∀ i ∈ is, pts.get? (i / 8 * 9 + i % 8) = some (g1 i) ∧
        pts.get? ((i / 8 + 1) * 9 + (i % 8 + 1)) = some (g2 i)) →
      buildRects pts is = some (is.map (fun i => mkRect (g1 i) (g2 i))) := by
  intro is
  induction is with
  | nil => intro _; rfl
  | cons j js ih =>
    intro h
    have hj := h j (List.mem_cons_self j js)
    have hjs := ih (fun i hi => h i (List.mem_cons_of_mem j hi))
    rw [buildRects, hj.1, hj.2, hjs]
    rfl

/-! Claim theorems. -/

/-- C1.  The claim says `setRectangles` fails with a structured
InsufficientGeometry error before any out-of-range access when fewer than 81
intersection points are supplied.  The code has no size check and no error
path at all: for every intersection list shorter than 81 it reaches an
out-of-range vector read (the bottom-right corner of the last square is
index 80), modelled here by the `none` produced by the failed `get?`.  No
value distinct from that undefined read is ever reported. -/
theorem setRectangles_reads_out_of_range (pts : List Point) (h : pts.length < 81) :
    setRectangles pts = none := by
  unfold setRectangles
  cases hb : buildRects pts (List.range 64) with
  | none => rfl
  | some rs =>
    exfalso
    have h63 : (63 : ℕ) ∈ List.range 64 := by decide
    rcases buildRects_some_reads hb 63 h63 with ⟨br, hbr⟩
    have hidx : (63 / 8 + 1) * 9 + (63 % 8 + 1) = 80 := by decide
    rw [hidx] at hbr
    have hnone : pts.get? 80 = none := List.get?_eq_none.mpr (by omega)
    rw [hnone] at hbr
    cases hbr

/-- Witness for C1 at the concrete empty intersection list. -/
theorem setRectangles_reads_out_of_range_witness :
    ([] : List Point).length < 81 ∧ setRectangles ([] : List Point) = none :=
  ⟨by decide, setRectangles_reads_out_of_range [] (by decide)⟩

/-- C2.  The claim says an all-empty 64-label board encodes to
`8/8/8/8/8/8/8/8`.  The code flushes a pending empty run only before a row
separator or a non-empty label, and the loop ends after the 64th label
without a final flush, so the eighth row's run of 8 is silently dropped:
the board field produced is `8/8/8/8/8/8/8/` (with the side to move
supplied as "w", the full string is as below). -/
theorem getFenFromLabels_drops_last_row_run :
    getFenFromLabels (List.replicate 64 "ee") "w" = some "8/8/8/8/8/8/8/ w - - 0 0" := by
  decide

/-- C6.  The claim says both labeling strategies pass identical checkerboard
`isDarkSquare` flags for the same board position.  Instantiating both loops
with the flag-revealing occupancy oracle `fun _ d => d` (the square is
reported empty exactly when the passed flag is true) shows the flags differ
at region index 8 (row 1, column 0): `getPieceLabels`, which skips the
toggle at each end of row (`current % 8 != 7`), passes `true` there, while
`getPieceLabelsNN`, which toggles unconditionally, passes `false`. -/
theorem pieceLabels_flag_divergence_at_index8 :
    (getPieceLabels (fun _ d => d) (fun _ _ => "xx") (List.replicate 64 demoRect)).get? 8
        = some "ee" ∧
      (getPieceLabelsNN (fun _ d => d) (fun _ => "xx") (List.replicate 64 demoRect)).get? 8
        = some "xx" := by
  with_unfolding_all decide

/-- C7.  The claim says mismatched feature-vector lengths yield an
InvalidFeatureVectorLength failure and never an ordinary numeric result.
The code only prints a diagnostic and computes anyway: for the concrete
mismatched pair `[0]` (length 1) and `[0, 0]` (length 2) it returns the
ordinary dissimilarity value 1. -/
theorem computeHistogramIntersectionDifference_mismatch_returns_numeric :
    ([(0 : ℚ)].length ≠ [(0 : ℚ), 0].length) ∧
      computeHistogramIntersectionDifference [0] [0, 0] = some 1 := by
  constructor
  · decide
  · with_unfolding_all decide

/-- C8.  The claim says an arg-max class index outside the 12-entry label
table causes a distinct UnknownClassIndex failure.  The code performs the
unchecked C-array read `PIECE_VALUES[classId]` — undefined behaviour, shown
here as `none`: no label (in particular not "ee") and no error value of any
kind is produced. -/
theorem getNNPieceLabel_out_of_range_index (classify : Mat → ℤ) (image : Mat)
    (currentRect : Rect)
    (h : classify (cropRect image currentRect) < 0 ∨
      12 ≤ classify (cropRect image currentRect)) :
    getNNPieceLabel classify image currentRect = none := by
  unfold getNNPieceLabel
  rw [if_neg]
  intro hin
  rcases h with h1 | h1
  · omega
  · omega

/-- Witness for C8 at the constant classifier returning class index 12. -/
theorem getNNPieceLabel_out_of_range_index_witness :
    ((fun _ : Mat => (12 : ℤ)) (cropRect demoMat demoRect) < 0 ∨
        12 ≤ (fun _ : Mat => (12 : ℤ)) (cropRect demoMat demoRect)) ∧
      getNNPieceLabel (fun _ : Mat => (12 : ℤ)) demoMat demoRect = none :=
  ⟨Or.inr (by decide),
    getNNPieceLabel_out_of_range_index (fun _ => 12) demoMat demoRect (Or.inr (by decide))⟩

/-- C9.  A label vector whose size is not exactly 64 is rejected up front:
the function returns the bare error value "" and encodes nothing, so the
returned notation string contains no partially encoded board content. -/
theorem getFenFromLabels_rejects_wrong_size (squareLabels : List String) (turn : String)
    (h : squareLabels.length ≠ 64) : getFenFromLabels squareLabels turn = some "" := by
  unfold getFenFromLabels
  rw [if_pos]
  simpa using h

/-- Witness for C9 at a concrete 1-element label vector. -/
theorem getFenFromLabels_rejects_wrong_size_witness :
    ["ee"].length ≠ 64 ∧ getFenFromLabels ["ee"] "w" = some "" :=
  ⟨by decide, getFenFromLabels_rejects_wrong_size ["ee"] "w" (by decide)⟩

/-- C10.  The occupancy decision of `isEmptySpace` is independent of the
`isDarkSquare` parameter: the flag is accepted but never read (the Canny
edge sum is compared against the single threshold 7000 regardless), so for
any in-bounds region the two flag values give the same boolean. -/
theorem isEmptySpace_ignores_dark_flag (cvtColor canny : Mat → Mat) (image : Mat)
    (currentRect : Rect) (h : rectInBounds image currentRect) :
    isEmptySpace cvtColor canny image currentRect true
      = isEmptySpace cvtColor canny image currentRect false := rfl

/-- Witness for C10 at a concrete image and region. -/
theorem isEmptySpace_ignores_dark_flag_witness :
    rectInBounds demoMat demoRect ∧
      isEmptySpace id id demoMat demoRect true = isEmptySpace id id demoMat demoRect false :=
  ⟨by with_unfolding_all decide,
    isEmptySpace_ignores_dark_flag id id demoMat demoRect (by with_unfolding_all decide)⟩

/-- C5, counterexample.  The claim says `comparePoints` is a valid strict
weak ordering (strict total preorder) on all Point2D values.  It is not even
transitive: with a = (5, 0), b = (0, 9) and c = (1, 2) we get a < b (y
differs by more than the slack) and b < c (same band, smaller x), yet not
a < c (same band, larger x). -/
theorem comparePoints_transitivity_fails :
    comparePoints ⟨5, 0⟩ ⟨0, 9⟩ = true ∧ comparePoints ⟨0, 9⟩ ⟨1, 2⟩ = true ∧
      comparePoints ⟨5, 0⟩ ⟨1, 2⟩ = false ∧
      ¬ (∀ p q s : Point, comparePoints p q = true → comparePoints q s = true →
          comparePoints p s = true) := by
  refine ⟨by with_unfolding_all decide, by with_unfolding_all decide,
    by with_unfolding_all decide, ?_⟩
  intro htrans
  have h1 := htrans ⟨5, 0⟩ ⟨0, 9⟩ ⟨1, 2⟩ (by with_unfolding_all decide)
    (by with_unfolding_all decide)
  have h2 : comparePoints ⟨5, 0⟩ ⟨1, 2⟩ = false := by with_unfolding_all decide
  rw [h1] at h2
  cases h2

/-- C5, amended.  The comparator `comparePoints` is irreflexive and asymmetric and respects
the row/column rule — when the y coordinates differ by more than the slack
of 8 the smaller-y point compares as less regardless of x, and within the
slack band the smaller-x point compares as less — but it is not transitive,
hence not a strict weak ordering over all Point2D values
(non-transitivity is established by the separate counterexample). -/
theorem comparePoints_row_column_rules :
    (∀ p : Point, comparePoints p p = false) ∧
    (∀ p q : Point, comparePoints p q = true → comparePoints q p = false) ∧
    (∀ p q : Point, p.y + 8 < q.y → comparePoints p q = true) ∧
    (∀ p q : Point, p.y + 8 > q.y → p.y < q.y + 8 → p.x < q.x → comparePoints p q = true) := by
  refine ⟨?_, ?_, ?_, ?_⟩
  · intro p
    unfold comparePoints
    rw [if_neg (by intro hcon; linarith)]
    simp only [decide_eq_false_iff_not]
    rintro ⟨-, -, hx⟩
    exact lt_irrefl _ hx
  · intro p q h
    unfold comparePoints at h ⊢
    by_cases h1 : p.y + 8 < q.y
    · rw [if_neg (show ¬ q.y + 8 < p.y by intro hcon; linarith)]
      simp only [decide_eq_false_iff_not]
      rintro ⟨-, hband, -⟩
      linarith
    · rw [if_neg h1] at h
      have h3 := of_decide_eq_true h
      rw [if_neg (show ¬ q.y + 8 < p.y by intro hcon; linarith [h3.1])]
      simp only [decide_eq_false_iff_not]
      rintro ⟨-, -, hx⟩
      exact absurd h3.2.2 (by linarith)
  · intro p q h1
    unfold comparePoints
    rw [if_pos h1]
  · intro p q h1 h2 h3
    unfold comparePoints
    rw [if_neg (by intro hcon; linarith)]
    simp only [decide_eq_true_eq]
    exact ⟨h1, h2, h3⟩

/-- Witness for the amended C5, exercising all four rules at concrete
points. -/
theorem comparePoints_row_column_rules_witness :
    comparePoints ⟨0, 0⟩ ⟨0, 0⟩ = false ∧ comparePoints ⟨3, 20⟩ ⟨7, 0⟩ = false ∧
      comparePoints ⟨0, 0⟩ ⟨5, 9⟩ = true ∧ comparePoints ⟨0, 0⟩ ⟨1, 0⟩ = true :=
  ⟨comparePoints_row_column_rules.1 ⟨0, 0⟩,
    comparePoints_row_column_rules.2.1 ⟨7, 0⟩ ⟨3, 20⟩ (by with_unfolding_all decide),
    comparePoints_row_column_rules.2.2.1 ⟨0, 0⟩ ⟨5, 9⟩ (by with_unfolding_all decide),
    comparePoints_row_column_rules.2.2.2 ⟨0, 0⟩ ⟨1, 0⟩ (by with_unfolding_all decide)
      (by with_unfolding_all decide) (by with_unfolding_all decide)⟩

/-- C4.  First part: any two entries at distinct positions of
`getIntersections`' result (accumulated from the empty list, as at every
call site) are at squared distance at least 900, i.e. no two distinct
returned points lie within the 30-unit dedup radius.  Second part: a
candidate intersection that falls within 30 units of an already-accepted
point leaves the accumulator unchanged — the first-found point is kept,
with no averaging. -/
theorem getIntersections_dedup_radius :
    (∀ (lines : List Line4) (imageSize dstSize : ImgSize)
        (i j : Fin (getIntersections lines imageSize dstSize).length), i ≠ j →
        900 ≤ sqDist ((getIntersections lines imageSize dstSize).get i)
          ((getIntersections lines imageSize dstSize).get j)) ∧
    (∀ (imageSize dstSize : ImgSize) (acc : List Point) (line1 line2 : Line4) (r : Point),
        checkIntersection line1 line2 imageSize = some r →
        arePointsNearby r acc 30 = true →
        considerCandidate imageSize dstSize acc line1 line2 = acc) := by
  constructor
  · intro lines imageSize dstSize i j hij
    have hp := getIntersections_pairwise lines imageSize dstSize
    rw [List.pairwise_iff_get] at hp
    rcases lt_trichotomy i j with hlt | heq | hgt
    · exact le_of_lt (lt_of_not_le (hp i j hlt))
    · exact absurd heq hij
    · rw [sqDist_comm]
      exact le_of_lt (lt_of_not_le (hp j i hgt))
  · intro imageSize dstSize acc line1 line2 r hc hn
    unfold considerCandidate
    rw [hc]
    dsimp only
    split_ifs with hm
    · rfl
    · rfl

/-- Witness for C4: three demo segments yield two accepted intersections
(100, 100) and (200, 100), at squared distance 10000 ≥ 900; and a candidate
equal to an accepted point is discarded, keeping the accumulator. -/
theorem getIntersections_dedup_radius_witness :
    900 ≤ sqDist
        ((getIntersections demoLines demoSize demoSize).get ⟨0, by with_unfolding_all decide⟩)
        ((getIntersections demoLines demoSize demoSize).get ⟨1, by with_unfolding_all decide⟩) ∧
      considerCandidate demoSize demoSize [⟨100, 100⟩] demoL1 demoL2 = [⟨100, 100⟩] :=
  ⟨getIntersections_dedup_radius.1 demoLines demoSize demoSize _ _
      (by with_unfolding_all decide),
    getIntersections_dedup_radius.2 demoSize demoSize [⟨100, 100⟩] demoL1 demoL2 ⟨100, 100⟩
      (by with_unfolding_all decide) (by with_unfolding_all decide)⟩

/-- C3.  Given exactly 81 points in sorted row-major order, `setRectangles`
succeeds and produces exactly 64 regions in row-major order, where region
row*8+col spans from point row*9+col (top-left corner) to point
(row+1)*9+(col+1) (bottom-right corner); in particular region (0,0) has its
top-left corner at points[0]. -/
theorem setRectangles_grid_structure (pts : List Point) (h81 : pts.length = 81)
    (hsort : rowMajorSorted pts) :
    ∃ rects : List Rect,
      setRectangles pts = some rects ∧
      rects.length = 64 ∧
      (∀ row col : ℕ, row < 8 → col < 8 → ∀ tl br : Point,
        pts.get? (row * 9 + col) = some tl →
        pts.get? ((row + 1) * 9 + (col + 1)) = some br →
        rects.get? (row * 8 + col) = some (mkRect tl br)) ∧
      (∀ p0 : Point, pts.get? 0 = some p0 →
        ∃ r0 : Rect, rects.get? 0 = some r0 ∧ r0.x = p0.x ∧ r0.y = p0.y) := by
  have hget : ∀ n, n < 81 → pts.get? n = some (pts.getD n ⟨0, 0⟩) := by
    intro n hn
    have hn2 : n < pts.length := by omega
    rw [List.getD_eq_get? , List.get?_eq_get hn2]
    rfl
  have hmem : ∀ i ∈ List.range 64,
      pts.get? (i / 8 * 9 + i % 8) = some (pts.getD (i / 8 * 9 + i % 8) ⟨0, 0⟩) ∧
      pts.get? ((i / 8 + 1) * 9 + (i % 8 + 1))
        = some (pts.getD ((i / 8 + 1) * 9 + (i % 8 + 1)) ⟨0, 0⟩) := by
    intro i hi
    have hi64 : i < 64 := List.mem_range.mp hi
    have hd : i / 8 < 8 := by omega
    have hm : i % 8 < 8 := by omega
    exact ⟨hget _ (by omega), hget _ (by omega)⟩
  have hbuild := buildRects_eq_map pts (fun i => pts.getD (i / 8 * 9 + i % 8) ⟨0, 0⟩)
    (fun i => pts.getD ((i / 8 + 1) * 9 + (i % 8 + 1)) ⟨0, 0⟩) (List.range 64) hmem
  refine ⟨_, hbuild, by simp, ?_, ?_⟩
  · intro row col hrow hcol tl br htl hbr
    have hk : row * 8 + col < 64 := by omega
    rw [List.get?_map, List.get?_range hk]
    have hdiv : (row * 8 + col) / 8 = row := by omega
    have hmod : (row * 8 + col) % 8 = col := by omega
    have etl : pts.getD ((row * 8 + col) / 8 * 9 + (row * 8 + col) % 8) ⟨0, 0⟩ = tl := by
      rw [hdiv, hmod, List.getD_eq_get?, htl]
      rfl
    have ebr : pts.getD (((row * 8 + col) / 8 + 1) * 9 + ((row * 8 + col) % 8 + 1)) ⟨0, 0⟩
        = br := by
      rw [hdiv, hmod, List.getD_eq_get?, hbr]
      rfl
    simp only [Option.map_some']
    rw [etl, ebr]
  · intro p0 hp0
    have e0 : pts.getD 0 ⟨0, 0⟩ = p0 := by
      rw [List.getD_eq_get?, hp0]
      rfl
    have s1 : pointLE (pts.getD 0 ⟨0, 0⟩) (pts.getD 1 ⟨0, 0⟩) := by
      simpa using hsort.1 ⟨0, by omega⟩ ⟨0, by omega⟩
    have s2 : pointLE (pts.getD 1 ⟨0, 0⟩) (pts.getD 10 ⟨0, 0⟩) := by
      simpa using hsort.2 ⟨0, by omega⟩ ⟨1, by omega⟩
    refine ⟨mkRect p0 (pts.getD 10 ⟨0, 0⟩), ?_, ?_, ?_⟩
    · rw [List.get?_map, List.get?_range (by omega)]
      simp only [Option.map_some']
      have e0g : pts[0]? = some p0 := by
        rw [← List.get?_eq_getElem?]
        exact hp0
      norm_num [e0g]
    · unfold mkRect
      dsimp only
      rw [e0] at s1
      exact min_eq_left (le_trans s1.1 s2.1)
    · unfold mkRect
      dsimp only
      rw [e0] at s1
      exact min_eq_left (le_trans s1.2 s2.2)

/-- Witness for C3 at a concrete regular 9x9 lattice. -/
theorem setRectangles_grid_structure_witness :
    demoPts.length = 81 ∧ rowMajorSorted demoPts ∧
      ∃ rects : List Rect,
        setRectangles demoPts = some rects ∧
        rects.length = 64 ∧
        (∀ row col : ℕ, row < 8 → col < 8 → ∀ tl br : Point,
          demoPts.get? (row * 9 + col) = some tl →
          demoPts.get? ((row + 1) * 9 + (col + 1)) = some br →
          rects.get? (row * 8 + col) = some (mkRect tl br)) ∧
        (∀ p0 : Point, demoPts.get? 0 = some p0 →
          ∃ r0 : Rect, rects.get? 0 = some r0 ∧ r0.x = p0.x ∧ r0.y = p0.y) :=
  ⟨by with_unfolding_all decide, by with_unfolding_all decide,
    setRectangles_grid_structure demoPts (by with_unfolding_all decide)
      (by with_unfolding_all decide)⟩

end ChessCV

